import Mathlib

/-!
Verification of the k9s watch/cache layer (`internal/watch` Factory and
`internal/client` APIClient.CanI) against its natural-language specification.

The Go source is shallowly embedded:
* Go maps become association lists with Go-map lookup/assign/delete semantics
  (`mapLookup`, `mapSet`, `mapDel`).
* The `Factory` struct's mutable fields become an explicit `Factory` state
  record, threaded through every operation.  Observable side effects the
  spec talks about (constructing a scope cache set, starting it, querying a
  cache store, stopping a forward session, closing the stop channel) are
  recorded in the state (`nextId`/`factories`, `starts`, `queries`,
  `stopped`, `closedCount`).
* Collaborators (the authorization endpoint and the informer factories of
  client-go) are a `World` of pure functions the theorems quantify over.
* Go panics (index out of range in `toGVR`, closing a closed channel) and
  the unbounded mutual recursion `ensureFactory -> preload -> ForResource`
  are modelled with `Option`: `none` is a panic or fuel exhaustion.  All
  theorems that run these functions conclude `= some ...`, which shows the
  fixed fuel is never exhausted on the runs considered.
-/

/-- Scope key meaning "all namespaces" (Go constant `allNamespaces = ""`). -/
def allNamespaces : String := ""

/-- Scope key for cluster-scoped resources (Go constant `clusterScope = "-"`). -/
def clusterScope : String := "-"

/-- The `schema.GroupVersionResource` triple. -/
structure GVR where
  group : String
  version : String
  resource : String
deriving DecidableEq, Repr

/-- Go `strings.Split(s, "/")` on the character list: adjacent separators
yield empty tokens and the empty string yields one empty token. -/
def splitSlash : List Char → List (List Char)
  | [] => [[]]
  | c :: t =>
    if c = '/' then [] :: splitSlash t
    else
      match splitSlash t with
      | [] => [[c]]
      | h :: r => (c :: h) :: r

/-- Go `strings.Split(s, "/")` as a list of strings. -/
def splitGo (s : String) : List String :=
  (splitSlash s.data).map (fun l => (⟨l⟩ : String))

/-- Embedding of `toGVR` (watch/factory.go): split on "/", prepend one empty
token when fewer than 3 tokens, then read positions 0,1,2.  A position read
past the end of the token slice is a Go index-out-of-range panic, modelled
as `none`. -/
def toGVR (gvr : String) : Option GVR :=
  let tokens := splitGo gvr
  let tokens := if tokens.length < 3 then "" :: tokens else tokens
  match tokens with
  | g :: v :: r :: _ => some ⟨g, v, r⟩
  | _ => none

/-- Trim all leading and trailing `'/'` characters from a character list
(Go `strings.Trim(s, "/")`). -/
def trimSlashesL (l : List Char) : List Char :=
  ((l.dropWhile (fun c => c = '/')).reverse.dropWhile (fun c => c = '/')).reverse

/-- Go `strings.Trim(s, "/")`. -/
def trimSlashes (s : String) : String := ⟨trimSlashesL s.data⟩

/-- Go `path.Split`: the directory part is everything up to and including the
final slash, the file part everything after it. -/
def pathSplit (p : String) : String × String :=
  let r := p.data.reverse
  (⟨(r.dropWhile (fun c => c ≠ '/')).reverse⟩, ⟨(r.takeWhile (fun c => c ≠ '/')).reverse⟩)

/-- Embedding of `namespaced` (watch/factory.go): `path.Split` then trim the
slashes off the directory part. -/
def namespaced (n : String) : String × String :=
  let p := pathSplit n
  (trimSlashes p.1, p.2)

/-- Outcome of one remote `SelfSubjectAccessReview` creation, as chosen by the
environment: the call succeeds and allows, succeeds and denies, or fails with
a transport error (abstracted as a code). -/
inductive VerbOutcome where
  | allow : VerbOutcome
  | deny : VerbOutcome
  | err : Nat → VerbOutcome
deriving DecidableEq, Repr

/-- The Go `error` values the embedded code can return. -/
inductive GoErr where
  /-- The `CanI` denial error: carries the denied verb and the `ns`/`gvr` it
  formats into the message. -/
  | denied (verb ns gvr : String)
  /-- A transport error from `dial.Create`, propagated as-is. -/
  | transport (code : Nat)
  /-- The own "User has insufficient access" error of `List`/`Get`. -/
  | insufficientAccess (verb gvr : String)
  /-- The "No resource for GVR" error of `List`/`Get`. -/
  | noResource (gvr : String)
deriving DecidableEq, Repr

/-- An opaque cached object (`runtime.Object`). -/
abbrev K8sObject := Nat

/-- An opaque label selector, passed through unmodified. -/
abbrev Selector := Nat

/-- The read surface of one `informers.GenericInformer`'s lister: scope-wide
list, namespace-filtered list, by-name get, and namespaced get. -/
structure GenericLister where
  listAll : Selector → List K8sObject
  listNs : String → Selector → List K8sObject
  getByName : String → Option K8sObject
  getInNs : String → String → Option K8sObject

/-- The collaborators: the authorization endpoint behind
`SelfSubjectAccessReviews().Create` (a function of the SAR's namespace,
resource string and verb) and client-go's informer lookup (a function of the
owning scope-set's identity and the resolved GVR; `none` models a nil
informer). -/
structure World where
  canI : String → String → String → VerbOutcome
  informer : Nat → GVR → Option GenericLister

/-- A port-forward session: its registry path and an identity used to record
which sessions got stopped. -/
structure Forwarder where
  path : String
  id : Nat
deriving DecidableEq, Repr

/-- The mutable state of the watch `Factory`.  Scope cache sets
(`di.DynamicSharedInformerFactory`) are identified by the allocation counter
`nextId`, so "the identical set" is "the same identifier".  `starts` logs
each `fac.Start` call, `queries` counts cache-store reads issued by
`list`/`get`, `stopped` logs stopped forwarder sessions and `closedCount`
counts executions of `close(stopChan)`. -/
structure Factory where
  factories : List (String × Nat)
  nextId : Nat
  stopChan : Option Bool
  activeNS : String
  forwarders : List (String × Forwarder)
  stopped : List Nat
  starts : List Nat
  queries : Nat
  closedCount : Nat
deriving DecidableEq, Repr

/-- A fresh factory as built by `NewFactory`: empty maps and an open stop
channel. -/
def NewFactory : Factory :=
  { factories := [], nextId := 0, stopChan := some false, activeNS := "",
    forwarders := [], stopped := [], starts := [], queries := 0, closedCount := 0 }

/-- Go map read `m[k]` (with `ok`). -/
def mapLookup {α : Type} : List (String × α) → String → Option α
  | [], _ => none
  | (k', v) :: t, k => if k' = k then some v else mapLookup t k

/-- Go map delete `delete(m, k)`. -/
def mapDel {α : Type} (m : List (String × α)) (k : String) : List (String × α) :=
  m.filter (fun kv => kv.1 ≠ k)

/-- Go map assignment `m[k] = v` (replaces any previous binding). -/
def mapSet {α : Type} (m : List (String × α)) (k : String) (v : α) : List (String × α) :=
  (k, v) :: mapDel m k

/-- Embedding of `APIClient.CanI` (client/client.go).  `makeSAR` rewrites the
namespace `"-"` to `""`; the loop sends one review per verb in order and
returns early on the first transport error (`(false, err)`) or denial
(`(false, denial error)`); if every verb is allowed it returns
`(true, nil)`.  Besides the Go return value the embedding also returns the
trace of verbs actually sent to the server. -/
def CanIAux (w : World) (nsr origNs gvr : String) : List String → (Bool × Option GoErr) × List String
  | [] => ((true, none), [])
  | v :: vs =>
    match w.canI nsr gvr v with
    | VerbOutcome.err c => ((false, some (GoErr.transport c)), [v])
    | VerbOutcome.deny => ((false, some (GoErr.denied v origNs gvr)), [v])
    | VerbOutcome.allow =>
      let r := CanIAux w nsr origNs gvr vs
      (r.1, v :: r.2)

/-- Embedding of `APIClient.CanI` with the `makeSAR` namespace rewrite applied (the denial
error message still formats the original `ns` argument). -/
def CanI (w : World) (ns gvr : String) (verbs : List String) : (Bool × Option GoErr) × List String :=
  CanIAux w (if ns = "-" then "" else ns) ns gvr verbs

/-- Embedding of `Factory.isClusterWide`: the factories map holds the all-namespaces key. -/
def Factory.isClusterWide (f : Factory) : Bool :=
  (mapLookup f.factories allNamespaces).isSome

mutual

/-- Embedding of `Factory.ensureFactory`: remap the key to all-namespaces when
cluster-wide, return an existing entry, otherwise construct a new scope set
(allocating the next identity), run `preload`, and return the map's entry for
the key. -/
def Factory.ensureFactory (w : World) : Nat → Factory → String → Option (Factory × Nat)
  | 0, _, _ => none
  | fuel + 1, f, ns =>
    let ns1 := if f.isClusterWide then allNamespaces else ns
    match mapLookup f.factories ns1 with
    | some fac => some (f, fac)
    | none =>
      let fid := f.nextId
      let f1 : Factory :=
        { f with factories := mapSet f.factories ns1 fid, nextId := f.nextId + 1 }
      match Factory.preload w fuel f1 ns1 with
      | none => none
      | some f2 =>
        match mapLookup f2.factories ns1 with
        | some fac => some (f2, fac)
        | none => none

/-- Embedding of `Factory.preload`: warm the fixed resource kinds. -/
def Factory.preload (w : World) : Nat → Factory → String → Option Factory
  | 0, _, _ => none
  | fuel + 1, f, ns =>
    match Factory.ForResource w fuel f ns "v1/pods" with
    | none => none
    | some (f, _) =>
      match Factory.ForResource w fuel f allNamespaces "apiextensions.k8s.io/v1beta1/customresourcedefinitions" with
      | none => none
      | some (f, _) =>
        match Factory.ForResource w fuel f clusterScope "rbac.authorization.k8s.io/v1/clusterroles" with
        | none => none
        | some (f, _) =>
          match Factory.ForResource w fuel f allNamespaces "rbac.authorization.k8s.io/v1/roles" with
          | none => none
          | some (f, _) => some f

/-- Embedding of `Factory.ForResource`: ensure the scope set, resolve the GVR
(`toGVR` may panic), fetch the informer, and `Start` the set (logged). -/
def Factory.ForResource (w : World) : Nat → Factory → String → String → Option (Factory × Option GenericLister)
  | 0, _, _, _ => none
  | fuel + 1, f, ns, gvr =>
    match Factory.ensureFactory w fuel f ns with
    | none => none
    | some (f, fid) =>
      match toGVR gvr with
      | none => none
      | some g =>
        let inf := w.informer fid g
        some ({ f with starts := f.starts ++ [fid] }, inf)

end

/-- Fuel for the `ensureFactory`/`preload`/`ForResource` recursion.  The call
graph nests at most seven levels (ensure → preload → ForResource → ensure →
preload → ForResource → ensure), so 12 is ample; the theorems' `= some`
conclusions certify it is never exhausted. -/
def FUEL : Nat := 12

/-- Embedding of `Factory.List`: authorize "list", then resolve the cache and
query it (scope-wide for the cluster-scope sentinel, namespace-filtered
otherwise).  Returns `(state, result)`; the Go `(nil, err)` return is
`Except.error`. -/
def Factory.list (w : World) (f : Factory) (gvr ns : String) (sel : Selector) :
    Option (Factory × Except GoErr (List K8sObject)) :=
  let r := (CanI w ns gvr ["list"]).1
  match r.2 with
  | some e => some (f, Except.error e)
  | none =>
    if r.1 = false then some (f, Except.error (GoErr.insufficientAccess "list" gvr))
    else
      match Factory.ForResource w FUEL f ns gvr with
      | none => none
      | some (f, none) => some (f, Except.error (GoErr.noResource gvr))
      | some (f, some inf) =>
        let f := { f with queries := f.queries + 1 }
        if ns = clusterScope then some (f, Except.ok (inf.listAll sel))
        else some (f, Except.ok (inf.listNs ns sel))

/-- Embedding of `Factory.Get`: split the path, authorize "get", resolve the
cache, and look up by name (ignoring the namespace for the cluster-scope
sentinel).  The selector argument exists in the Go signature but is unused. -/
def Factory.get (w : World) (f : Factory) (gvr path : String) (sel : Selector) :
    Option (Factory × Except GoErr (Option K8sObject)) :=
  let p := namespaced path
  let ns := p.1
  let n := p.2
  let r := (CanI w ns gvr ["get"]).1
  match r.2 with
  | some e => some (f, Except.error e)
  | none =>
    if r.1 = false then some (f, Except.error (GoErr.insufficientAccess "get" gvr))
    else
      match Factory.ForResource w FUEL f ns gvr with
      | none => none
      | some (f, none) => some (f, Except.error (GoErr.noResource gvr))
      | some (f, some inf) =>
        let f := { f with queries := f.queries + 1 }
        if ns = clusterScope then some (f, Except.ok (inf.getByName n))
        else some (f, Except.ok (inf.getInNs ns n))

/-- Embedding of `Factory.SetActive`: ensure the scope set unless already
cluster-wide, then record the active namespace. -/
def Factory.SetActive (w : World) (f : Factory) (ns : String) : Option Factory :=
  if f.isClusterWide then some { f with activeNS := ns }
  else
    match Factory.ensureFactory w FUEL f ns with
    | none => none
    | some (f1, _) => some { f1 with activeNS := ns }

/-- Modelled from the spec: the `Forwarders` collaborator's `DeleteAll`, whose
defining file is not part of this corpus (only its caller is).  Per the spec's
registry contract, `terminateAll()` "stops and removes every session; safe on
an empty registry": every registered session's stop is recorded and the
registry is emptied. -/
def Factory.forwardersDeleteAll (f : Factory) : Factory :=
  { f with stopped := f.stopped ++ f.forwarders.map (fun kv => kv.2.id),
           forwarders := [] }

/-- Embedding of `Factory.Terminate`: close the stop channel when it is
non-nil and set it to nil (closing an already-closed channel would be a Go
panic, `none`; the nil guard makes the second call skip the close), then
delete every factories entry and `DeleteAll` the forwarders.  The returned
`Bool` reports whether this call executed `close`. -/
def Factory.Terminate (f : Factory) : Option (Factory × Bool) :=
  match f.stopChan with
  | some true => none
  | some false =>
    let f1 : Factory :=
      { f with stopChan := none, closedCount := f.closedCount + 1, factories := [] }
    some (Factory.forwardersDeleteAll f1, true)
  | none =>
    let f1 : Factory := { f with factories := [] }
    some (Factory.forwardersDeleteAll f1, false)

/-- Embedding of `Factory.RegisterForwarder`: plain map assignment under
`pf.Path()`; no stop of any replaced session. -/
def Factory.RegisterForwarder (f : Factory) (pf : Forwarder) : Factory :=
  { f with forwarders := mapSet f.forwarders pf.path pf }

/-- Embedding of `Factory.DeleteForwarder`: when the path is present, stop the
session (recorded) and delete the entry; otherwise do nothing. -/
def Factory.DeleteForwarder (f : Factory) (path : String) : Factory :=
  match mapLookup f.forwarders path with
  | some fwd =>
    { f with stopped := f.stopped ++ [fwd.id], forwarders := mapDel f.forwarders path }
  | none => f

/-! ## Map lemmas -/

theorem mapLookup_mapDel_self {α : Type} (m : List (String × α)) (k : String) :
    mapLookup (mapDel m k) k = none := by
  induction m with
  | nil => rfl
  | cons kv t ih =>
    rcases kv with ⟨k', v⟩
    by_cases h : k' = k
    · simpa [mapDel, List.filter_cons, h] using ih
    · simpa [mapDel, List.filter_cons, h, mapLookup] using ih

theorem mapLookup_mapDel_ne {α : Type} (m : List (String × α)) (k k' : String)
    (h : k' ≠ k) : mapLookup (mapDel m k) k' = mapLookup m k' := by
  induction m with
  | nil => rfl
  | cons kv t ih =>
    rcases kv with ⟨k'', v⟩
    by_cases h2 : k'' = k
    · have hd : mapDel ((k'', v) :: t) k = mapDel t k := by
        simp [mapDel, List.filter_cons, h2]
      have hne : ¬ k'' = k' := fun he => h ((he.symm).trans h2)
      rw [hd, ih]
      simp [mapLookup, hne]
    · have hd : mapDel ((k'', v) :: t) k = (k'', v) :: mapDel t k := by
        simp [mapDel, List.filter_cons, h2]
      rw [hd]
      simp only [mapLookup, ih]

theorem mapLookup_mapSet_self {α : Type} (m : List (String × α)) (k : String) (v : α) :
    mapLookup (mapSet m k v) k = some v := by
  simp [mapSet, mapLookup]

theorem mapLookup_mapSet_ne {α : Type} (m : List (String × α)) (k k' : String) (v : α)
    (h : k' ≠ k) : mapLookup (mapSet m k v) k' = mapLookup m k' := by
  simp only [mapSet, mapLookup, if_neg (Ne.symm h)]
  exact mapLookup_mapDel_ne m k k' h

/-! ## `ensureFactory` / `preload` / `ForResource` unfolding lemmas -/

theorem isClusterWide_true {f : Factory} {fid : Nat}
    (h : mapLookup f.factories allNamespaces = some fid) : f.isClusterWide = true := by
  simp [Factory.isClusterWide, h]

theorem isClusterWide_false {f : Factory}
    (h : mapLookup f.factories allNamespaces = none) : f.isClusterWide = false := by
  simp [Factory.isClusterWide, h]

/-- On a cluster-wide factory, `ensureFactory` remaps any key to
all-namespaces, finds the existing entry and changes nothing. -/
theorem ensureFactory_clusterWide (w : World) (fuel : Nat) (f : Factory) (ns : String)
    {fid : Nat} (h : mapLookup f.factories allNamespaces = some fid) :
    Factory.ensureFactory w (fuel + 1) f ns = some (f, fid) := by
  simp [Factory.ensureFactory, isClusterWide_true h, h]

/-- On a non-cluster-wide factory, `ensureFactory` of a present key finds it
and changes nothing. -/
theorem ensureFactory_found (w : World) (fuel : Nat) (f : Factory) (ns : String)
    {fid : Nat} (h0 : mapLookup f.factories allNamespaces = none)
    (h1 : mapLookup f.factories ns = some fid) :
    Factory.ensureFactory w (fuel + 1) f ns = some (f, fid) := by
  simp [Factory.ensureFactory, isClusterWide_false h0, h1]

/-- On a cluster-wide factory, `ForResource` only fetches the informer from
the cluster-wide set and logs one `Start`. -/
theorem forResource_clusterWide (w : World) (fuel : Nat) (f : Factory) (ns gvr : String)
    {fid : Nat} {g : GVR} (h : mapLookup f.factories allNamespaces = some fid)
    (hg : toGVR gvr = some g) :
    Factory.ForResource w (fuel + 2) f ns gvr =
      some ({ f with starts := f.starts ++ [fid] }, w.informer fid g) := by
  have he := ensureFactory_clusterWide w fuel f ns h
  simp [Factory.ForResource, he, hg]

/-- On a cluster-wide factory, `preload` leaves the maps alone and just starts
the cluster-wide set four times. -/
theorem preload_clusterWide (w : World) (fuel : Nat) (f : Factory) (ns : String)
    {fid : Nat} (h : mapLookup f.factories allNamespaces = some fid) :
    Factory.preload w (fuel + 3) f ns =
      some { f with starts := f.starts ++ [fid, fid, fid, fid] } := by
  have hg1 : toGVR "v1/pods" = some ⟨"", "v1", "pods"⟩ := by decide
  have hg2 : toGVR "apiextensions.k8s.io/v1beta1/customresourcedefinitions" =
      some ⟨"apiextensions.k8s.io", "v1beta1", "customresourcedefinitions"⟩ := by decide
  have hg3 : toGVR "rbac.authorization.k8s.io/v1/clusterroles" =
      some ⟨"rbac.authorization.k8s.io", "v1", "clusterroles"⟩ := by decide
  have hg4 : toGVR "rbac.authorization.k8s.io/v1/roles" =
      some ⟨"rbac.authorization.k8s.io", "v1", "roles"⟩ := by decide
  have h1 := forResource_clusterWide w fuel f ns "v1/pods" h hg1
  have h2 := forResource_clusterWide w fuel { f with starts := f.starts ++ [fid] }
    allNamespaces "apiextensions.k8s.io/v1beta1/customresourcedefinitions" h hg2
  have h3 := forResource_clusterWide w fuel
    { f with starts := f.starts ++ [fid] ++ [fid] } clusterScope
    "rbac.authorization.k8s.io/v1/clusterroles" h hg3
  have h4 := forResource_clusterWide w fuel
    { f with starts := f.starts ++ [fid] ++ [fid] ++ [fid] } allNamespaces
    "rbac.authorization.k8s.io/v1/roles" h hg4
  simp only [Factory.preload, h1, h2, h3, h4]
  simp [List.append_assoc]

/-- On a non-cluster-wide factory, `ForResource` of a present key starts the
found set and fetches its informer. -/
theorem forResource_found_noCW (w : World) (fuel : Nat) (f : Factory) (ns gvr : String)
    {fid : Nat} {g : GVR} (h0 : mapLookup f.factories allNamespaces = none)
    (h1 : mapLookup f.factories ns = some fid) (hg : toGVR gvr = some g) :
    Factory.ForResource w (fuel + 2) f ns gvr =
      some ({ f with starts := f.starts ++ [fid] }, w.informer fid g) := by
  have he := ensureFactory_found w fuel f ns h0 h1
  simp [Factory.ForResource, he, hg]

/-- First-ever ensure of the all-namespaces key: construct the set, preload it
(each warm-up request resolves back to the just-created cluster-wide set). -/
theorem ensureFactory_insert_empty (w : World) (fuel : Nat) (f : Factory)
    (h : mapLookup f.factories allNamespaces = none) :
    Factory.ensureFactory w (fuel + 4) f allNamespaces =
      some ({ f with
          factories := mapSet f.factories allNamespaces f.nextId,
          nextId := f.nextId + 1,
          starts := f.starts ++ [f.nextId, f.nextId, f.nextId, f.nextId] }, f.nextId) := by
  have hcw : f.isClusterWide = false := isClusterWide_false h
  have hl : mapLookup
      (mapSet f.factories allNamespaces f.nextId) allNamespaces = some f.nextId :=
    mapLookup_mapSet_self _ _ _
  have hp := preload_clusterWide w fuel
    { f with factories := mapSet f.factories allNamespaces f.nextId,
             nextId := f.nextId + 1 }
    allNamespaces hl
  simp [Factory.ensureFactory, hcw, h, hp, hl]

/-- Running `ForResource` against the all-namespaces key when that set does not exist
yet: it is constructed, preloaded, and started one extra time. -/
theorem forResource_insert_empty (w : World) (fuel : Nat) (f : Factory) (gvr : String)
    {g : GVR} (h : mapLookup f.factories allNamespaces = none)
    (hg : toGVR gvr = some g) :
    Factory.ForResource w (fuel + 5) f allNamespaces gvr =
      some ({ f with
          factories := mapSet f.factories allNamespaces f.nextId,
          nextId := f.nextId + 1,
          starts := f.starts ++ [f.nextId, f.nextId, f.nextId, f.nextId, f.nextId] },
        w.informer f.nextId g) := by
  have he := ensureFactory_insert_empty w fuel f h
  simp only [Factory.ForResource, he, hg]
  simp [List.append_assoc]

/-- First-ever ensure of a key other than all-namespaces on a non-cluster-wide
factory: the set for `ns` is constructed (identity `nextId`), and its warm-up
constructs and returns into existence the cluster-wide set (identity
`nextId + 1`); the call returns the `ns` set. -/
theorem ensureFactory_insert_ns (w : World) (fuel : Nat) (f : Factory) (ns : String)
    (hns : ns ≠ allNamespaces) (h0 : mapLookup f.factories allNamespaces = none)
    (h1 : mapLookup f.factories ns = none) :
    Factory.ensureFactory w (fuel + 7) f ns =
      some ({ f with
          factories := mapSet (mapSet f.factories ns f.nextId) allNamespaces (f.nextId + 1),
          nextId := f.nextId + 2,
          starts := f.starts ++ [f.nextId, f.nextId + 1, f.nextId + 1, f.nextId + 1,
                                 f.nextId + 1, f.nextId + 1, f.nextId + 1, f.nextId + 1] },
        f.nextId) := by
  have hcw : f.isClusterWide = false := isClusterWide_false h0
  -- state after inserting the `ns` entry
  have h0' : mapLookup (mapSet f.factories ns f.nextId) allNamespaces = none := by
    rw [mapLookup_mapSet_ne _ _ _ _ (fun he => hns he.symm)]
    exact h0
  have h1' : mapLookup (mapSet f.factories ns f.nextId) ns = some f.nextId :=
    mapLookup_mapSet_self _ _ _
  have hg1 : toGVR "v1/pods" = some ⟨"", "v1", "pods"⟩ := by decide
  have hg2 : toGVR "apiextensions.k8s.io/v1beta1/customresourcedefinitions" =
      some ⟨"apiextensions.k8s.io", "v1beta1", "customresourcedefinitions"⟩ := by decide
  have hg3 : toGVR "rbac.authorization.k8s.io/v1/clusterroles" =
      some ⟨"rbac.authorization.k8s.io", "v1", "clusterroles"⟩ := by decide
  have hg4 : toGVR "rbac.authorization.k8s.io/v1/roles" =
      some ⟨"rbac.authorization.k8s.io", "v1", "roles"⟩ := by decide
  -- warm-up step 1: pods against `ns` (found, non-cluster-wide)
  have hs1 := forResource_found_noCW w (fuel + 3)
    { f with factories := mapSet f.factories ns f.nextId, nextId := f.nextId + 1 }
    ns "v1/pods" h0' h1' hg1
  -- warm-up step 2: CRDs against all-namespaces (constructs the cluster-wide set)
  have hs2 := forResource_insert_empty w fuel
    { f with factories := mapSet f.factories ns f.nextId, nextId := f.nextId + 1,
             starts := f.starts ++ [f.nextId] }
    "apiextensions.k8s.io/v1beta1/customresourcedefinitions" h0' hg2
  -- the cluster-wide entry now present
  have hcl : mapLookup
      (mapSet (mapSet f.factories ns f.nextId) allNamespaces (f.nextId + 1))
      allNamespaces = some (f.nextId + 1) := mapLookup_mapSet_self _ _ _
  -- warm-up steps 3 and 4: cluster-wide remap
  have hs3 := forResource_clusterWide w (fuel + 3)
    { f with factories := mapSet (mapSet f.factories ns f.nextId) allNamespaces (f.nextId + 1),
             nextId := f.nextId + 2,
             starts := f.starts ++ [f.nextId] ++ [f.nextId + 1, f.nextId + 1, f.nextId + 1,
                                                  f.nextId + 1, f.nextId + 1] }
    clusterScope "rbac.authorization.k8s.io/v1/clusterroles" hcl hg3
  have hs4 := forResource_clusterWide w (fuel + 3)
    { f with factories := mapSet (mapSet f.factories ns f.nextId) allNamespaces (f.nextId + 1),
             nextId := f.nextId + 2,
             starts := f.starts ++ [f.nextId] ++ [f.nextId + 1, f.nextId + 1, f.nextId + 1,
                                                  f.nextId + 1, f.nextId + 1] ++ [f.nextId + 1] }
    allNamespaces "rbac.authorization.k8s.io/v1/roles" hcl hg4
  have hfin : mapLookup
      (mapSet (mapSet f.factories ns f.nextId) allNamespaces (f.nextId + 1)) ns =
      some f.nextId := by
    rw [mapLookup_mapSet_ne _ _ _ _ hns]
    exact h1'
  simp only [Factory.ensureFactory, Factory.preload, hcw, h1, Bool.false_eq_true,
    if_false, hs1, hs2, hs3, hs4, hcl, hfin]
  simp [List.append_assoc]

/-! ## Claim theorems -/

/-- C2: once the scope-set map contains the all-namespaces (cluster-wide) key,
an ensure-operation for any scope key is remapped to the cluster-wide entry
and returns it with the state completely unchanged (so no namespace-scoped
entry is ever inserted), and `SetActive` with any namespace only updates the
active-scope pointer without constructing anything. -/
theorem claim_c2_clusterWide_ensure_noop (w : World) (f : Factory) (ns : String)
    (fid : Nat) (h : mapLookup f.factories allNamespaces = some fid) :
    Factory.ensureFactory w FUEL f ns = some (f, fid) ∧
    Factory.SetActive w f ns = some { f with activeNS := ns } := by
  constructor
  · have := ensureFactory_clusterWide w 11 f ns h
    simpa [FUEL] using this
  · simp [Factory.SetActive, isClusterWide_true h]

/-- C2 witness: on a concrete cluster-wide factory, ensuring a namespace key
returns the cluster-wide set unchanged and `SetActive` just moves the
pointer. -/
theorem claim_c2_witness :
    mapLookup ({ NewFactory with factories := [("", 7)], nextId := 8 } : Factory).factories
        allNamespaces = some 7 ∧
    Factory.ensureFactory { canI := fun _ _ _ => VerbOutcome.allow, informer := fun _ _ => none }
        FUEL { NewFactory with factories := [("", 7)], nextId := 8 } "default" =
      some ({ NewFactory with factories := [("", 7)], nextId := 8 }, 7) ∧
    Factory.SetActive { canI := fun _ _ _ => VerbOutcome.allow, informer := fun _ _ => none }
        { NewFactory with factories := [("", 7)], nextId := 8 } "default" =
      some { NewFactory with factories := [("", 7)], nextId := 8, activeNS := "default" } := by
  refine ⟨by decide, ?_⟩
  have h := claim_c2_clusterWide_ensure_noop
    { canI := fun _ _ _ => VerbOutcome.allow, informer := fun _ _ => none }
    { NewFactory with factories := [("", 7)], nextId := 8 } "default" 7 (by decide)
  simpa [NewFactory] using h

/-- A world in which every access review is allowed and every informer is nil;
enough to drive the cache-map bookkeeping. -/
def w0 : World := { canI := fun _ _ _ => VerbOutcome.allow, informer := fun _ _ => none }

/-- The factory state reached after the first ensure of "default" on a fresh
factory: the "default" set has identity 0, and warm-up has also created the
cluster-wide set with identity 1. -/
def afterFirstEnsure : Factory :=
  ⟨[("", 1), ("default", 0)], 2, some false, "", [], [], [0, 1, 1, 1, 1, 1, 1, 1], 0, 0⟩

/-- C6 counterexample: on a fresh factory, two successive ensure-operations
for the scope key "default" do NOT return the identical scope cache set: the
first returns the newly built "default" set (identity 0), the second is
remapped to the cluster-wide set built by warm-up (identity 1). -/
theorem claim_c6_counterexample :
    (Factory.ensureFactory w0 FUEL NewFactory "default").map (fun p => p.2) = some 0 ∧
    ((Factory.ensureFactory w0 FUEL NewFactory "default").bind
        (fun p => Factory.ensureFactory w0 FUEL p.1 "default")).map (fun p => p.2) = some 1 ∧
    (Factory.ensureFactory w0 FUEL NewFactory "default").map (fun p => p.2) ≠
      ((Factory.ensureFactory w0 FUEL NewFactory "default").bind
        (fun p => Factory.ensureFactory w0 FUEL p.1 "default")).map (fun p => p.2) := by
  have h1 : Factory.ensureFactory w0 FUEL NewFactory "default" =
      some (afterFirstEnsure, 0) := by
    have h := ensureFactory_insert_ns w0 5 NewFactory "default" (by decide) rfl rfl
    simpa [FUEL, NewFactory, afterFirstEnsure, mapSet, mapDel] using h
  have h2 : Factory.ensureFactory w0 FUEL afterFirstEnsure "default" =
      some (afterFirstEnsure, 1) := by
    have hc : mapLookup afterFirstEnsure.factories allNamespaces = some 1 := by decide
    have h := ensureFactory_clusterWide w0 11 afterFirstEnsure "default" hc
    simpa [FUEL] using h
  refine ⟨by rw [h1]; rfl, ?_, ?_⟩
  · rw [h1]
    simp [h2]
  · rw [h1]
    simp [h2]

/-- C6 (amended): two successive ensure-operations return the identical scope
cache set whenever the factory is already cluster-wide, or the key is the
all-namespaces key, or the key is already present in the scope map — i.e. in
every case except the first-ever ensure of a non-all-namespaces key, where
the counterexample shows the second call instead returns the cluster-wide set
created by warm-up. -/
theorem claim_c6_amended (w : World) (f : Factory) (ns : String)
    (h : f.isClusterWide = true ∨ ns = allNamespaces ∨
      (mapLookup f.factories ns).isSome = true) :
    ∀ f' fid, Factory.ensureFactory w FUEL f ns = some (f', fid) →
      Factory.ensureFactory w FUEL f' ns = some (f', fid) := by
  intro f' fid heq
  rcases h with h | h | h
  · obtain ⟨c, hc⟩ := Option.isSome_iff_exists.mp (by simpa [Factory.isClusterWide] using h)
    rw [show Factory.ensureFactory w FUEL f ns = some (f, c) by
      simpa [FUEL] using ensureFactory_clusterWide w 11 f ns hc] at heq
    obtain ⟨rfl, rfl⟩ : f = f' ∧ c = fid := by simpa [eq_comm] using heq
    simpa [FUEL] using ensureFactory_clusterWide w 11 f ns hc
  · subst h
    cases hl : mapLookup f.factories allNamespaces with
    | some c =>
      rw [show Factory.ensureFactory w FUEL f allNamespaces = some (f, c) by
        simpa [FUEL] using ensureFactory_clusterWide w 11 f allNamespaces hl] at heq
      obtain ⟨rfl, rfl⟩ : f = f' ∧ c = fid := by simpa [eq_comm] using heq
      simpa [FUEL] using ensureFactory_clusterWide w 11 f allNamespaces hl
    | none =>
      rw [show Factory.ensureFactory w FUEL f allNamespaces = some _ by
        simpa [FUEL] using ensureFactory_insert_empty w 8 f hl] at heq
      obtain ⟨rfl, rfl⟩ : _ ∧ f.nextId = fid := by simpa [eq_comm] using heq
      have hc : mapLookup
          (({ f with
              factories := mapSet f.factories allNamespaces f.nextId,
              nextId := f.nextId + 1,
              starts := f.starts ++ [f.nextId, f.nextId, f.nextId, f.nextId] } : Factory)).factories
          allNamespaces = some f.nextId := mapLookup_mapSet_self _ _ _
      simpa [FUEL] using ensureFactory_clusterWide w 11 _ allNamespaces hc
  · obtain ⟨c, hc⟩ := Option.isSome_iff_exists.mp h
    cases hl : mapLookup f.factories allNamespaces with
    | some c2 =>
      rw [show Factory.ensureFactory w FUEL f ns = some (f, c2) by
        simpa [FUEL] using ensureFactory_clusterWide w 11 f ns hl] at heq
      obtain ⟨rfl, rfl⟩ : f = f' ∧ c2 = fid := by simpa [eq_comm] using heq
      simpa [FUEL] using ensureFactory_clusterWide w 11 f ns hl
    | none =>
      rw [show Factory.ensureFactory w FUEL f ns = some (f, c) by
        simpa [FUEL] using ensureFactory_found w 11 f ns hl hc] at heq
      obtain ⟨rfl, rfl⟩ : f = f' ∧ c = fid := by simpa [eq_comm] using heq
      simpa [FUEL] using ensureFactory_found w 11 f ns hl hc

/-- C6 (amended) witness: on a concrete cluster-wide factory, ensuring "ns1"
twice returns the identical set (identity 3). -/
theorem claim_c6_amended_witness :
    (({ NewFactory with factories := [("", 3)] } : Factory).isClusterWide = true ∨
      "ns1" = allNamespaces ∨
      (mapLookup ({ NewFactory with factories := [("", 3)] } : Factory).factories
        "ns1").isSome = true) ∧
    Factory.ensureFactory w0 FUEL { NewFactory with factories := [("", 3)] } "ns1" =
      some ({ NewFactory with factories := [("", 3)] }, 3) := by
  have hc : mapLookup ({ NewFactory with factories := [("", 3)] } : Factory).factories
      allNamespaces = some 3 := by decide
  have h1 : Factory.ensureFactory w0 FUEL { NewFactory with factories := [("", 3)] } "ns1" =
      some ({ NewFactory with factories := [("", 3)] }, 3) := by
    simpa [FUEL] using ensureFactory_clusterWide w0 11 _ "ns1" hc
  exact ⟨Or.inl (by decide),
    claim_c6_amended w0 { NewFactory with factories := [("", 3)] } "ns1"
      (Or.inl (by decide)) _ _ h1⟩

/-- C10: ensuring any scope key on a factory that is not yet cluster-wide
(and does not already hold that key — true of every state the program can
produce, where a non-cluster-wide factory has an empty scope map) creates the
all-namespaces set as a side effect of the warm-up preload; afterwards every
ensure for any scope key is remapped to that cluster-wide set and changes
nothing. -/
theorem claim_c10_preload_creates_clusterWide (w : World) (f : Factory) (ns : String)
    (h0 : f.isClusterWide = false) (h1 : mapLookup f.factories ns = none) :
    ∃ f' fid cfid,
      Factory.ensureFactory w FUEL f ns = some (f', fid) ∧
      mapLookup f'.factories allNamespaces = some cfid ∧
      ∀ ns2, Factory.ensureFactory w FUEL f' ns2 = some (f', cfid) := by
  have hl : mapLookup f.factories allNamespaces = none := by
    cases hl : mapLookup f.factories allNamespaces with
    | none => rfl
    | some c => rw [isClusterWide_true hl] at h0; cases h0
  by_cases hns : ns = allNamespaces
  · subst hns
    refine ⟨{ f with
        factories := mapSet f.factories allNamespaces f.nextId,
        nextId := f.nextId + 1,
        starts := f.starts ++ [f.nextId, f.nextId, f.nextId, f.nextId] },
      f.nextId, f.nextId,
      by simpa [FUEL] using ensureFactory_insert_empty w 8 f hl,
      mapLookup_mapSet_self _ _ _, ?_⟩
    intro ns2
    have hc : mapLookup ({ f with
        factories := mapSet f.factories allNamespaces f.nextId,
        nextId := f.nextId + 1,
        starts := f.starts ++ [f.nextId, f.nextId, f.nextId, f.nextId] } : Factory).factories
        allNamespaces = some f.nextId := mapLookup_mapSet_self _ _ _
    simpa [FUEL] using ensureFactory_clusterWide w 11 { f with
        factories := mapSet f.factories allNamespaces f.nextId,
        nextId := f.nextId + 1,
        starts := f.starts ++ [f.nextId, f.nextId, f.nextId, f.nextId] } ns2 hc
  · refine ⟨{ f with
        factories := mapSet (mapSet f.factories ns f.nextId) allNamespaces (f.nextId + 1),
        nextId := f.nextId + 2,
        starts := f.starts ++ [f.nextId, f.nextId + 1, f.nextId + 1, f.nextId + 1,
                               f.nextId + 1, f.nextId + 1, f.nextId + 1, f.nextId + 1] },
      f.nextId, f.nextId + 1,
      by simpa [FUEL] using ensureFactory_insert_ns w 5 f ns hns hl h1,
      mapLookup_mapSet_self _ _ _, ?_⟩
    intro ns2
    have hc : mapLookup ({ f with
        factories := mapSet (mapSet f.factories ns f.nextId) allNamespaces (f.nextId + 1),
        nextId := f.nextId + 2,
        starts := f.starts ++ [f.nextId, f.nextId + 1, f.nextId + 1, f.nextId + 1,
                               f.nextId + 1, f.nextId + 1, f.nextId + 1, f.nextId + 1] } : Factory).factories
        allNamespaces = some (f.nextId + 1) := mapLookup_mapSet_self _ _ _
    simpa [FUEL] using ensureFactory_clusterWide w 11 { f with
        factories := mapSet (mapSet f.factories ns f.nextId) allNamespaces (f.nextId + 1),
        nextId := f.nextId + 2,
        starts := f.starts ++ [f.nextId, f.nextId + 1, f.nextId + 1, f.nextId + 1,
                               f.nextId + 1, f.nextId + 1, f.nextId + 1, f.nextId + 1] } ns2 hc

/-- C10 witness: the fresh factory is not cluster-wide and holds no entry for
"default", and the first ensure makes it cluster-wide for good. -/
theorem claim_c10_witness :
    NewFactory.isClusterWide = false ∧
    mapLookup NewFactory.factories "default" = none ∧
    ∃ f' fid cfid,
      Factory.ensureFactory w0 FUEL NewFactory "default" = some (f', fid) ∧
      mapLookup f'.factories allNamespaces = some cfid ∧
      ∀ ns2, Factory.ensureFactory w0 FUEL f' ns2 = some (f', cfid) :=
  ⟨by decide, rfl,
    claim_c10_preload_creates_clusterWide w0 NewFactory "default" (by decide) rfl⟩

/-- C1: when the authorization gate comes back not-allowed for the one verb
checked ("list" for list, "get" for get) — whether by explicit denial or by a
failure of the check itself — `list`/`get` return a nil result with an error
and the factory state is completely unchanged: no scope cache set is created
or started and no cache store is queried. -/
theorem claim_c1_denied_no_cache_touch (w : World) (f : Factory) (gvr ns path : String)
    (sel : Selector) :
    ((CanI w ns gvr ["list"]).1.1 = false →
      ∃ e, Factory.list w f gvr ns sel = some (f, Except.error e)) ∧
    ((CanI w (namespaced path).1 gvr ["get"]).1.1 = false →
      ∃ e, Factory.get w f gvr path sel = some (f, Except.error e)) := by
  constructor
  · intro h
    rcases he : (CanI w ns gvr ["list"]).1 with ⟨b, oe⟩
    have hb : b = false := by rw [he] at h; exact h
    subst hb
    cases oe with
    | some e => exact ⟨e, by simp [Factory.list, he]⟩
    | none => exact ⟨GoErr.insufficientAccess "list" gvr, by simp [Factory.list, he]⟩
  · intro h
    rcases he : (CanI w (namespaced path).1 gvr ["get"]).1 with ⟨b, oe⟩
    have hb : b = false := by rw [he] at h; exact h
    subst hb
    cases oe with
    | some e => exact ⟨e, by simp [Factory.get, he]⟩
    | none => exact ⟨GoErr.insufficientAccess "get" gvr, by simp [Factory.get, he]⟩

/-- A world that denies every access review. -/
def wDeny : World := { canI := fun _ _ _ => VerbOutcome.deny, informer := fun _ _ => none }

/-- C1 witness: under an all-denying gate, concrete `list` and `get` calls
return an error with the factory untouched. -/
theorem claim_c1_witness :
    (CanI wDeny "ns1" "v1/pods" ["list"]).1.1 = false ∧
    (CanI wDeny (namespaced "ns1/po1").1 "v1/pods" ["get"]).1.1 = false ∧
    (∃ e, Factory.list wDeny NewFactory "v1/pods" "ns1" 0 =
      some (NewFactory, Except.error e)) ∧
    (∃ e, Factory.get wDeny NewFactory "v1/pods" "ns1/po1" 0 =
      some (NewFactory, Except.error e)) := by
  refine ⟨by decide, by decide, ?_, ?_⟩
  · exact (claim_c1_denied_no_cache_touch wDeny NewFactory "v1/pods" "ns1" "ns1/po1" 0).1
      (by decide)
  · exact (claim_c1_denied_no_cache_touch wDeny NewFactory "v1/pods" "ns1" "ns1/po1" 0).2
      (by decide)

/-- C7: once the authorization check succeeds and cache resolution yields an
informer, `list` queries the scope-wide listing for the cluster-scope
sentinel and the namespace-filtered listing otherwise; `get` splits its path
into (namespace, name) and looks up by name alone for the cluster-scope
sentinel (ignoring the namespace portion), and by (namespace, name)
otherwise.  One cache-store query is recorded either way. -/
theorem claim_c7_query_routing (w : World) (f : Factory) (gvr ns path : String)
    (sel : Selector) :
    (∀ f1 inf, (CanI w ns gvr ["list"]).1 = (true, none) →
      Factory.ForResource w FUEL f ns gvr = some (f1, some inf) →
      Factory.list w f gvr ns sel =
        some ({ f1 with queries := f1.queries + 1 },
          Except.ok (if ns = clusterScope then inf.listAll sel else inf.listNs ns sel))) ∧
    (∀ f1 inf, (CanI w (namespaced path).1 gvr ["get"]).1 = (true, none) →
      Factory.ForResource w FUEL f (namespaced path).1 gvr = some (f1, some inf) →
      Factory.get w f gvr path sel =
        some ({ f1 with queries := f1.queries + 1 },
          Except.ok (if (namespaced path).1 = clusterScope
            then inf.getByName (namespaced path).2
            else inf.getInNs (namespaced path).1 (namespaced path).2))) := by
  constructor
  · intro f1 inf hc hr
    simp only [Factory.list, hc, hr]
    by_cases hns : ns = clusterScope <;> simp [hns]
  · intro f1 inf hc hr
    simp only [Factory.get, hc, hr]
    by_cases hns : (namespaced path).1 = clusterScope <;> simp [hns]

/-- A concrete lister with distinguishable answers for each accessor. -/
def lister1 : GenericLister :=
  { listAll := fun _ => [10, 11], listNs := fun _ _ => [12],
    getByName := fun _ => some 7, getInNs := fun _ _ => some 8 }

/-- A world that allows everything and always resolves to `lister1`. -/
def w1 : World :=
  { canI := fun _ _ _ => VerbOutcome.allow, informer := fun _ _ => some lister1 }

/-- A concrete cluster-wide factory (the all-namespaces set has identity 0). -/
def fcw : Factory := { NewFactory with factories := [("", 0)], nextId := 1 }

/-- C7 witness: on a concrete cluster-wide factory with `lister1` answering,
`list` over the cluster-scope sentinel returns the scope-wide listing, `list`
over a namespace returns the filtered listing, and `get` of a path whose
namespace part is the sentinel returns the by-name lookup. -/
theorem claim_c7_witness :
    (CanI w1 "-" "v1/pods" ["list"]).1 = (true, none) ∧
    (CanI w1 (namespaced "-/po1").1 "v1/pods" ["get"]).1 = (true, none) ∧
    Factory.list w1 fcw "v1/pods" "-" 3 =
      some ({ fcw with starts := [0], queries := 1 }, Except.ok [10, 11]) ∧
    Factory.list w1 fcw "v1/pods" "ns1" 3 =
      some ({ fcw with starts := [0], queries := 1 }, Except.ok [12]) ∧
    Factory.get w1 fcw "v1/pods" "-/po1" 3 =
      some ({ fcw with starts := [0], queries := 1 }, Except.ok (some 7)) := by
  have hg : toGVR "v1/pods" = some ⟨"", "v1", "pods"⟩ := by decide
  have hcw : mapLookup fcw.factories allNamespaces = some 0 := by decide
  have hrA : Factory.ForResource w1 FUEL fcw "-" "v1/pods" =
      some ({ fcw with starts := fcw.starts ++ [0] }, some lister1) := by
    simpa [FUEL, w1] using forResource_clusterWide w1 10 fcw "-" "v1/pods" hcw hg
  have hrB : Factory.ForResource w1 FUEL fcw "ns1" "v1/pods" =
      some ({ fcw with starts := fcw.starts ++ [0] }, some lister1) := by
    simpa [FUEL, w1] using forResource_clusterWide w1 10 fcw "ns1" "v1/pods" hcw hg
  have hnsp : namespaced "-/po1" = ("-", "po1") := by decide
  have hrC : Factory.ForResource w1 FUEL fcw (namespaced "-/po1").1 "v1/pods" =
      some ({ fcw with starts := fcw.starts ++ [0] }, some lister1) := by
    rw [hnsp]; exact hrA
  refine ⟨rfl, ?_, ?_, ?_, ?_⟩
  · rw [hnsp]; rfl
  · have h := (claim_c7_query_routing w1 fcw "v1/pods" "-" "-/po1" 3).1
      { fcw with starts := fcw.starts ++ [0] } lister1 rfl hrA
    simpa [fcw, NewFactory, lister1, clusterScope] using h
  · have h := (claim_c7_query_routing w1 fcw "v1/pods" "ns1" "-/po1" 3).1
      { fcw with starts := fcw.starts ++ [0] } lister1 rfl hrB
    simpa [fcw, NewFactory, lister1, clusterScope] using h
  · have h := (claim_c7_query_routing w1 fcw "v1/pods" "-" "-/po1" 3).2
      { fcw with starts := fcw.starts ++ [0] } lister1 (by rw [hnsp]; rfl) hrC
    simpa [fcw, NewFactory, lister1, clusterScope, hnsp] using h

/-- C5: starting from an open stop channel, the first `Terminate` closes the
shared shutdown signal exactly once (nil-guarded), empties the scope-set map,
and stops and removes every registered forward session; the second call finds
the signal nil, closes nothing (the close counter is unchanged and the
returned flag is `false`), changes nothing, and does not fail. -/
theorem claim_c5_terminate_one_shot (f : Factory) (h : f.stopChan = some false) :
    ∃ f1, Factory.Terminate f = some (f1, true) ∧
      f1.stopChan = none ∧
      f1.closedCount = f.closedCount + 1 ∧
      f1.factories = [] ∧
      f1.forwarders = [] ∧
      f1.stopped = f.stopped ++ f.forwarders.map (fun kv => kv.2.id) ∧
      Factory.Terminate f1 = some (f1, false) := by
  obtain ⟨fac, nid, sc, ans, fwd, st, sts, q, cc⟩ := f
  simp only at h
  subst h
  refine ⟨_, rfl, rfl, rfl, rfl, rfl, rfl, ?_⟩
  simp [Factory.Terminate, Factory.forwardersDeleteAll]

/-- A concrete factory with one scope set and one registered forwarder. -/
def fTerm : Factory :=
  { NewFactory with factories := [("", 0)], forwarders := [("p1", ⟨"p1", 5⟩)] }

/-- C5 witness: a concrete factory with one scope set and one registered
forwarder terminates cleanly twice. -/
theorem claim_c5_witness :
    fTerm.stopChan = some false ∧
    ∃ f1, Factory.Terminate fTerm = some (f1, true) ∧
      f1.stopChan = none ∧
      f1.closedCount = fTerm.closedCount + 1 ∧
      f1.factories = [] ∧
      f1.forwarders = [] ∧
      f1.stopped = fTerm.stopped ++ fTerm.forwarders.map (fun kv => kv.2.id) ∧
      Factory.Terminate f1 = some (f1, false) :=
  ⟨rfl, claim_c5_terminate_one_shot fTerm rfl⟩

/-- C8: `RegisterForwarder` stores the session under its path, silently
replacing any existing session at that path without stopping it, so a lookup
afterwards returns the most recently registered session; `DeleteForwarder` on
a present path stops that session and then removes it (a subsequent lookup
misses), and on an absent path changes nothing. -/
theorem claim_c8_forwarder_registry (f : Factory) (pf1 pf2 : Forwarder)
    (hp : pf2.path = pf1.path) :
    (Factory.RegisterForwarder f pf1).stopped = f.stopped ∧
    (Factory.RegisterForwarder (Factory.RegisterForwarder f pf1) pf2).stopped = f.stopped ∧
    mapLookup (Factory.RegisterForwarder (Factory.RegisterForwarder f pf1) pf2).forwarders
      pf1.path = some pf2 ∧
    (∀ p fwd, mapLookup f.forwarders p = some fwd →
      Factory.DeleteForwarder f p =
        { f with stopped := f.stopped ++ [fwd.id],
                 forwarders := mapDel f.forwarders p } ∧
      mapLookup (Factory.DeleteForwarder f p).forwarders p = none) ∧
    (∀ p, mapLookup f.forwarders p = none → Factory.DeleteForwarder f p = f) := by
  refine ⟨rfl, rfl, ?_, ?_, ?_⟩
  · rw [← hp]
    exact mapLookup_mapSet_self _ _ _
  · intro p fwd h
    refine ⟨by simp [Factory.DeleteForwarder, h], ?_⟩
    simp [Factory.DeleteForwarder, h, mapLookup_mapDel_self]
  · intro p h
    simp [Factory.DeleteForwarder, h]

/-- C8 witness: registering two sessions under the same path keeps the second
and stops nothing; deleting a present path stops and removes it; deleting an
absent path is a no-op. -/
theorem claim_c8_witness :
    (Factory.RegisterForwarder
      (Factory.RegisterForwarder NewFactory ⟨"p1", 1⟩) ⟨"p1", 2⟩).stopped = [] ∧
    mapLookup (Factory.RegisterForwarder
      (Factory.RegisterForwarder NewFactory ⟨"p1", 1⟩) ⟨"p1", 2⟩).forwarders "p1" =
      some ⟨"p1", 2⟩ ∧
    Factory.DeleteForwarder { NewFactory with forwarders := [("p1", ⟨"p1", 1⟩)] } "p1" =
      { NewFactory with stopped := [1], forwarders := [] } ∧
    Factory.DeleteForwarder NewFactory "p1" = NewFactory := by
  have h := claim_c8_forwarder_registry NewFactory ⟨"p1", 1⟩ ⟨"p1", 2⟩ rfl
  refine ⟨h.2.1, h.2.2.1, ?_, h.2.2.2.2 "p1" rfl⟩
  have h2 := claim_c8_forwarder_registry
    { NewFactory with forwarders := [("p1", ⟨"p1", 1⟩)] } ⟨"p1", 1⟩ ⟨"p1", 2⟩ rfl
  have h3 := (h2.2.2.2.1 "p1" ⟨"p1", 1⟩ (by decide)).1
  simpa [NewFactory, mapDel] using h3

/-- The `CanI` loop stops at the first verb whose review is not allowed: the
verbs actually sent are exactly the allowed prefix plus that verb, and the
result distinguishes denial from transport failure. -/
theorem canIAux_stops_at_first_failure (w : World) (nsr origNs gvr : String)
    (vs1 : List String) (v : String) (vs2 : List String)
    (h1 : ∀ u ∈ vs1, w.canI nsr gvr u = VerbOutcome.allow)
    (h2 : w.canI nsr gvr v ≠ VerbOutcome.allow) :
    (CanIAux w nsr origNs gvr (vs1 ++ v :: vs2)).2 = vs1 ++ [v] ∧
    ((∃ c, w.canI nsr gvr v = VerbOutcome.err c ∧
        (CanIAux w nsr origNs gvr (vs1 ++ v :: vs2)).1 =
          (false, some (GoErr.transport c))) ∨
      (w.canI nsr gvr v = VerbOutcome.deny ∧
        (CanIAux w nsr origNs gvr (vs1 ++ v :: vs2)).1 =
          (false, some (GoErr.denied v origNs gvr)))) := by
  induction vs1 with
  | nil =>
    cases hv : w.canI nsr gvr v with
    | allow => exact absurd hv h2
    | deny => exact ⟨by simp [CanIAux, hv], Or.inr ⟨rfl, by simp [CanIAux, hv]⟩⟩
    | err c => exact ⟨by simp [CanIAux, hv], Or.inl ⟨c, rfl, by simp [CanIAux, hv]⟩⟩
  | cons u t ih =>
    have hu : w.canI nsr gvr u = VerbOutcome.allow := h1 u (List.mem_cons_self u t)
    have ht : ∀ x ∈ t, w.canI nsr gvr x = VerbOutcome.allow :=
      fun x hx => h1 x (List.mem_cons_of_mem u hx)
    obtain ⟨ihtrace, ihres⟩ := ih ht
    refine ⟨by simp [CanIAux, hu, ihtrace], ?_⟩
    rcases ihres with ⟨c, hv, hres⟩ | ⟨hv, hres⟩
    · exact Or.inl ⟨c, hv, by simp [CanIAux, hu, hres]⟩
    · exact Or.inr ⟨hv, by simp [CanIAux, hu, hres]⟩

/-- C4: `CanI` examines the verbs in the given list order and stops at the
first verb that is denied or whose remote check fails — the remaining verbs
are never sent — and an explicit denial is reported distinctly (a denial
error naming the verb, namespace and resource) from a transport failure of
the check itself (the transport error propagated as-is). -/
theorem claim_c4_first_failure_stops (w : World) (ns gvr : String)
    (vs1 : List String) (v : String) (vs2 : List String)
    (h1 : ∀ u ∈ vs1, w.canI (if ns = "-" then "" else ns) gvr u = VerbOutcome.allow)
    (h2 : w.canI (if ns = "-" then "" else ns) gvr v ≠ VerbOutcome.allow) :
    (CanI w ns gvr (vs1 ++ v :: vs2)).2 = vs1 ++ [v] ∧
    ((∃ c, w.canI (if ns = "-" then "" else ns) gvr v = VerbOutcome.err c ∧
        (CanI w ns gvr (vs1 ++ v :: vs2)).1 = (false, some (GoErr.transport c))) ∨
      (w.canI (if ns = "-" then "" else ns) gvr v = VerbOutcome.deny ∧
        (CanI w ns gvr (vs1 ++ v :: vs2)).1 = (false, some (GoErr.denied v ns gvr)))) :=
  canIAux_stops_at_first_failure w (if ns = "-" then "" else ns) ns gvr vs1 v vs2 h1 h2

/-- A world that allows "get" and denies everything else. -/
def wGetOnly : World :=
  { canI := fun _ _ verb => if verb = "get" then VerbOutcome.allow else VerbOutcome.deny,
    informer := fun _ _ => none }

/-- C4 witness: checking ["get", "watch", "list"] under a gate that only
allows "get" sends exactly ["get", "watch"] and reports the denial of
"watch". -/
theorem claim_c4_witness :
    (∀ u ∈ ["get"], wGetOnly.canI (if "ns1" = "-" then "" else "ns1") "v1/pods" u =
      VerbOutcome.allow) ∧
    wGetOnly.canI (if "ns1" = "-" then "" else "ns1") "v1/pods" "watch" ≠
      VerbOutcome.allow ∧
    (CanI wGetOnly "ns1" "v1/pods" (["get"] ++ "watch" :: ["list"])).2 =
      ["get"] ++ ["watch"] ∧
    ((∃ c, wGetOnly.canI (if "ns1" = "-" then "" else "ns1") "v1/pods" "watch" =
        VerbOutcome.err c ∧
        (CanI wGetOnly "ns1" "v1/pods" (["get"] ++ "watch" :: ["list"])).1 =
          (false, some (GoErr.transport c))) ∨
      (wGetOnly.canI (if "ns1" = "-" then "" else "ns1") "v1/pods" "watch" =
        VerbOutcome.deny ∧
        (CanI wGetOnly "ns1" "v1/pods" (["get"] ++ "watch" :: ["list"])).1 =
          (false, some (GoErr.denied "watch" "ns1" "v1/pods")))) := by
  refine ⟨by decide, by decide, ?_⟩
  exact claim_c4_first_failure_stops wGetOnly "ns1" "v1/pods" ["get"] "watch" ["list"]
    (by decide) (by decide)

/-! ## Path splitter lemmas -/

theorem takeWhile_eq_self_of_all {α : Type} (p : α → Bool) :
    ∀ l : List α, (∀ a ∈ l, p a = true) → l.takeWhile p = l := by
  intro l h
  induction l with
  | nil => rfl
  | cons a t ih =>
    have ha := h a (List.mem_cons_self a t)
    have ht := fun x hx => h x (List.mem_cons_of_mem a hx)
    simp [List.takeWhile_cons, ha, ih ht]

theorem dropWhile_eq_nil_of_all {α : Type} (p : α → Bool) :
    ∀ l : List α, (∀ a ∈ l, p a = true) → l.dropWhile p = [] := by
  intro l h
  induction l with
  | nil => rfl
  | cons a t ih =>
    have ha := h a (List.mem_cons_self a t)
    have ht := fun x hx => h x (List.mem_cons_of_mem a hx)
    simp [List.dropWhile_cons, ha, ih ht]

theorem takeWhile_append_stop {α : Type} (p : α → Bool) :
    ∀ (l1 : List α) (c : α) (l2 : List α), (∀ a ∈ l1, p a = true) → p c = false →
      (l1 ++ c :: l2).takeWhile p = l1 := by
  intro l1 c l2 h1 hc
  induction l1 with
  | nil => simp [List.takeWhile_cons, hc]
  | cons a t ih =>
    have ha := h1 a (List.mem_cons_self a t)
    have ht := fun x hx => h1 x (List.mem_cons_of_mem a hx)
    simp [List.takeWhile_cons, ha, ih ht]

theorem dropWhile_append_stop {α : Type} (p : α → Bool) :
    ∀ (l1 : List α) (c : α) (l2 : List α), (∀ a ∈ l1, p a = true) → p c = false →
      (l1 ++ c :: l2).dropWhile p = c :: l2 := by
  intro l1 c l2 h1 hc
  induction l1 with
  | nil => simp [List.dropWhile_cons, hc]
  | cons a t ih =>
    have ha := h1 a (List.mem_cons_self a t)
    have ht := fun x hx => h1 x (List.mem_cons_of_mem a hx)
    simp [List.dropWhile_cons, ha, ih ht]

/-- Trimming slashes ignores a trailing slash. -/
theorem trimSlashesL_append_slash (l : List Char) :
    trimSlashesL (l ++ ['/']) = trimSlashesL l := by
  induction l with
  | nil => rfl
  | cons a t ih =>
    by_cases ha : a = '/'
    · have hstep : ∀ X : List Char, trimSlashesL (a :: X) = trimSlashesL X := by
        intro X
        simp [trimSlashesL, List.dropWhile_cons, ha]
      rw [List.cons_append, hstep, hstep, ih]
    · have h1 : (a :: (t ++ ['/'])).dropWhile (fun c => c = '/') = a :: (t ++ ['/']) := by
        simp [List.dropWhile_cons, ha]
      have h2 : (a :: t).dropWhile (fun c => c = '/') = a :: t := by
        simp [List.dropWhile_cons, ha]
      simp only [trimSlashesL, List.cons_append, h1, h2]
      simp [List.reverse_append, List.reverse_cons, List.dropWhile_cons, List.append_assoc]

/-- C9: the path splitter returns as namespace everything before the final
separator, with separators trimmed from both ends of that portion, and as
name everything after it; a string with no separator yields an empty
namespace and the whole string as name; in particular "default/pod-abc"
yields ("default", "pod-abc") and "pod-abc" yields ("", "pod-abc"). -/
theorem claim_c9_path_splitter :
    (∀ s : String, (∀ c ∈ s.data, c ≠ '/') → namespaced s = ("", s)) ∧
    (∀ pre name : String, (∀ c ∈ name.data, c ≠ '/') →
      namespaced (pre ++ "/" ++ name) = (trimSlashes pre, name)) ∧
    namespaced "default/pod-abc" = ("default", "pod-abc") ∧
    namespaced "pod-abc" = ("", "pod-abc") := by
  refine ⟨?_, ?_, by decide, by decide⟩
  · intro s h
    obtain ⟨l⟩ := s
    have hall : ∀ c ∈ l.reverse, (decide (c ≠ '/')) = true := by
      intro c hc
      simpa using h c (List.mem_reverse.mp hc)
    have h1 := takeWhile_eq_self_of_all (fun c => decide (c ≠ '/')) l.reverse hall
    have h2 := dropWhile_eq_nil_of_all (fun c => decide (c ≠ '/')) l.reverse hall
    simp only [namespaced, pathSplit]
    rw [h1, h2]
    simp [trimSlashes, trimSlashesL]
  · intro pre name h
    obtain ⟨lp⟩ := pre
    obtain ⟨ln⟩ := name
    have hdata : ((String.mk lp ++ "/" ++ String.mk ln)).data = lp ++ '/' :: ln := by
      show (lp ++ ['/']) ++ ln = lp ++ '/' :: ln
      simp
    have hall : ∀ c ∈ ln.reverse, (decide (c ≠ '/')) = true := by
      intro c hc
      simpa using h c (List.mem_reverse.mp hc)
    have hrev : (lp ++ '/' :: ln).reverse = ln.reverse ++ '/' :: lp.reverse := by
      simp
    have h1 := takeWhile_append_stop (fun c => decide (c ≠ '/')) ln.reverse '/' lp.reverse
      hall (by decide)
    have h2 := dropWhile_append_stop (fun c => decide (c ≠ '/')) ln.reverse '/' lp.reverse
      hall (by decide)
    simp only [namespaced, pathSplit]
    rw [hdata, hrev, h1, h2]
    have e1 : trimSlashes (String.mk (('/' :: lp.reverse).reverse)) =
        trimSlashes (String.mk lp) := by
      have hx : ('/' :: lp.reverse).reverse = lp ++ ['/'] := by simp
      rw [hx]
      show String.mk (trimSlashesL (lp ++ ['/'])) = String.mk (trimSlashesL lp)
      rw [trimSlashesL_append_slash]
    have e2 : (String.mk (ln.reverse.reverse)) = String.mk ln := by simp
    rw [e1, e2]

/-- C9 witness: a separator-free string splits to an empty namespace, and a
built composite path splits to the trimmed prefix and the name. -/
theorem claim_c9_witness :
    (∀ c ∈ ("abc" : String).data, c ≠ '/') ∧
    namespaced "abc" = ("", "abc") ∧
    (∀ c ∈ ("po1" : String).data, c ≠ '/') ∧
    namespaced ("ns1//" ++ "/" ++ "po1") = (trimSlashes "ns1//", "po1") := by
  refine ⟨by decide, ?_, by decide, ?_⟩
  · exact claim_c9_path_splitter.1 "abc" (by decide)
  · exact claim_c9_path_splitter.2.1 "ns1//" "po1" (by decide)

/-- C3 counterexample: the resolver does NOT succeed on every input.  For the
zero-separator input "pods" the split has one token, prepending a single
empty token yields only two, and the read of position 2 is an index
out-of-range panic (modelled `none`) — resolution fails rather than
returning a triple. -/
theorem claim_c3_counterexample : toGVR "pods" = none := by decide

/-- C3 (amended): the resolver never fails and returns the segments in order
(group, version, resource) for every input whose split on "/" yields at
least two segments (at least one separator), prepending one empty group
segment when there are exactly two; for a zero-separator input (one segment)
the third-position read is out of range and resolution fails. -/
theorem claim_c3_amended (s : String) :
    (2 ≤ (splitGo s).length → (toGVR s).isSome = true) ∧
    ((splitGo s).length ≤ 1 → toGVR s = none) ∧
    (∀ v r, splitGo s = [v, r] → toGVR s = some ⟨"", v, r⟩) ∧
    (∀ g v r rest, splitGo s = g :: v :: r :: rest → toGVR s = some ⟨g, v, r⟩) := by
  rcases hsp : splitGo s with _ | ⟨a, _ | ⟨b, _ | ⟨c, t⟩⟩⟩
  · refine ⟨by simp [hsp], fun _ => by simp [toGVR, hsp], ?_, ?_⟩
    · intro v r h
      cases h
    · intro g v r rest h
      cases h
  · refine ⟨by simp [hsp], fun _ => by simp [toGVR, hsp], ?_, ?_⟩
    · intro v r h
      cases h
    · intro g v r rest h
      cases h
  · refine ⟨fun _ => by simp [toGVR, hsp], by simp [hsp], ?_, ?_⟩
    · intro v r h
      obtain ⟨rfl, rfl⟩ : a = v ∧ b = r := by simpa using h
      simp [toGVR, hsp]
    · intro g v r rest h
      cases h
  · have hlen : ¬ (t.length + 1 + 1 + 1 < 3) := by omega
    refine ⟨fun _ => by simp [toGVR, hsp, hlen], by simp [hsp], ?_, ?_⟩
    · intro v r h
      cases h
    · intro g v r rest h
      obtain ⟨rfl, rfl, rfl, rfl⟩ : a = g ∧ b = v ∧ c = r ∧ t = rest := by simpa using h
      simp [toGVR, hsp, hlen]

/-- C3 (amended) witness: "apps/v1/deployments" resolves to the full triple,
"v1/pods" gains an empty group, and both have two or more segments. -/
theorem claim_c3_witness :
    splitGo "v1/pods" = ["v1", "pods"] ∧
    toGVR "v1/pods" = some ⟨"", "v1", "pods"⟩ ∧
    splitGo "apps/v1/deployments" = ["apps", "v1", "deployments"] ∧
    toGVR "apps/v1/deployments" = some ⟨"apps", "v1", "deployments"⟩ ∧
    (splitGo "pods").length ≤ 1 ∧
    toGVR "pods" = none := by
  refine ⟨by decide, ?_, by decide, ?_, by decide, ?_⟩
  · exact (claim_c3_amended "v1/pods").2.2.1 "v1" "pods" (by decide)
  · exact (claim_c3_amended "apps/v1/deployments").2.2.2 "apps" "v1" "deployments" []
      (by decide)
  · exact (claim_c3_amended "pods").2.1 (by decide)
